import Mathlib

/-!
Verification development for the quantos-sdk keystore (`kp.go`).

The embedding represents every base58-encoded text field of the Go structs by
the byte sequence it decodes to (`List Nat`), relying on the fact that the
base58 encoding used throughout (`common.EncodeBase58` / `common.DecodeBase58`)
is a bijection between byte strings and their text forms that maps the empty
byte string to the empty text and back.  Under that representation
`EncodeBase58` and `DecodeBase58` are the identity, and the Go test
`k.RawKey == ""` becomes `k.rawKey = []`.

The external cryptographic primitives (scrypt key derivation, AES-CTR stream
xor, SHA3) live in other repositories; they are abstracted as the fields of a
`CryptoPrims` structure, so every theorem about the record operations is
proved for an arbitrary instantiation of the primitives unless it evaluates
the code at a concrete input, in which case a simple stand-in instantiation
(`idPrims`) is used.
-/

namespace QuantosKP

/-- Abstraction of the external cryptographic primitives used by `kp.go`:
`scrypt.Key password salt 32768 8 1 32` (always 32 bytes of key material for
the fixed, valid parameters), `cipher.NewCTR(aes, iv).XORKeyStream` (a
length-preserving stream xor with a 16-byte key and 16-byte iv), and
`common.Sha3`. -/
structure CryptoPrims where
  scryptKey : List Nat → List Nat → List Nat
  ctrXor : List Nat → List Nat → List Nat → List Nat
  sha3 : List Nat → List Nat
  scrypt_len : ∀ p s, (scryptKey p s).length = 32
  ctr_len : ∀ k iv d, (ctrXor k iv d).length = d.length

/-- The `KeyPairInfo` struct of `kp.go`.  Binary-valued text fields are
represented by their decoded bytes (see the file comment): `rawKey`, `pubKey`,
`salt`, `encryptedKey` and `mac` stand for the base58 decodings of the Go
string fields `RawKey`, `PubKey`, `Salt`, `EncryptedKey` and `Mac`. -/
structure KeyPairInfo where
  id : String
  rawKey : List Nat
  keyType : String
  pubKey : List Nat
  salt : List Nat
  encryptedKey : List Nat
  mac : List Nat
deriving DecidableEq

/-- The error outcomes of the record and account operations.
`sliceOutOfRange` stands for the Go runtime panic raised by an out-of-range
slice expression (`salt[0:32]` / `salt[32:48]`); it is a separate constructor
because a panic is not an `error` return value. -/
inductive KPError where
  | emptyKey
  | alreadyEncrypted
  | notEncrypted
  | wrongPassword
  | accountAlreadyEncrypted
  | accountNotEncrypted
  | sliceOutOfRange
deriving DecidableEq

/-- `NewKeyPairInfo` (kp.go lines 29-45).  The uuid, the externally generated
key pair and the marshalled public key are inputs of the embedding (`id`,
`pubKey`); the possible `MarshalBinary` failure of the external library is
outside the modelled code.  Returns `none` exactly when the raw key is empty
(the Go `"empty key"` error). -/
def NewKeyPairInfo (rawKey : List Nat) (keyType : String) (id : String)
    (pubKey : List Nat) : Option KeyPairInfo :=
  if rawKey = [] then none
  else some
    { id := id, rawKey := rawKey, keyType := keyType, pubKey := pubKey,
      salt := [], encryptedKey := [], mac := [] }

/-- `KeyPairInfo.IsEncrypted` (kp.go lines 61-63):
`k.EncryptedKey != "" || k.RawKey == ""`. -/
def KeyPairInfo.isEncrypted (k : KeyPairInfo) : Bool :=
  !k.encryptedKey.isEmpty || k.rawKey.isEmpty

/-- `KeyPairInfo.Encrypt` (kp.go lines 65-88).  The Go method mutates the
receiver and returns an `error`; the embedding returns the post-state paired
with the optional error.  `rand32` is the 32 bytes that `frand.Read` writes
into `salt[0:32]`; the remaining 16 bytes of the freshly allocated salt stay
zero.  The error returns of `scrypt.Key` and `aes.NewCipher` are unreachable
(the scrypt parameters are fixed valid constants and the AES key `key[0:16]`
is 16 bytes), so they do not appear.  Note that the computed ciphertext
`outText` is used for the mac but is never assigned to `k.EncryptedKey`. -/
def KeyPairInfo.encrypt (P : CryptoPrims) (rand32 : List Nat) (k : KeyPairInfo)
    (password : List Nat) : KeyPairInfo × Option KPError :=
  if k.isEncrypted then (k, some .alreadyEncrypted)
  else
    let salt := rand32.take 32 ++ List.replicate 16 0
    let key := P.scryptKey password (salt.take 32)
    let inText := k.rawKey
    let outText := P.ctrXor (key.take 16) ((salt.drop 32).take 16) inText
    let mac := P.sha3 ((key.drop 16).take 16 ++ outText)
    ({ k with salt := salt, mac := mac, rawKey := [] }, none)

/-- `KeyPairInfo.Decrypt` (kp.go lines 90-114).  When the stored salt decodes
to fewer than 48 bytes, the Go slice expressions `salt[0:32]` (line 95) and
`salt[32:48]` (line 103) panic at run time; the embedding makes that branch
explicit as `sliceOutOfRange`.  The mac is recomputed over the stored
ciphertext `inText` (line 107) and compared with the stored mac; on mismatch
the record is returned unchanged with `wrongPassword`.  On success only
`rawKey` is updated — the encrypted fields stay in place. -/
def KeyPairInfo.decrypt (P : CryptoPrims) (k : KeyPairInfo)
    (password : List Nat) : KeyPairInfo × Option KPError :=
  if !k.isEncrypted then (k, some .notEncrypted)
  else if k.salt.length < 48 then (k, some .sliceOutOfRange)
  else
    let key := P.scryptKey password (k.salt.take 32)
    let inText := k.encryptedKey
    let outText := P.ctrXor (key.take 16) ((k.salt.drop 32).take 16) inText
    let mac := P.sha3 ((key.drop 16).take 16 ++ inText)
    if mac ≠ k.mac then (k, some .wrongPassword)
    else ({ k with rawKey := outText }, none)

/-- Stand-in instantiation of the external primitives, used only to evaluate
the embedding at concrete inputs: a constant key-derivation output, the
identity as stream xor (a zero keystream), and the identity as hash. -/
def idPrims : CryptoPrims where
  scryptKey := fun _ _ => List.replicate 32 0
  ctrXor := fun _ _ d => d
  sha3 := fun d => d
  scrypt_len := fun _ _ => List.length_replicate 32 0
  ctr_len := fun _ _ _ => rfl

/-- A concrete 32-byte random input for `encrypt`. -/
def r0 : List Nat := List.replicate 32 7

/-- A concrete freshly created plaintext record. -/
def k0 : KeyPairInfo :=
  { id := "id0", rawKey := [1], keyType := "ed25519", pubKey := [2],
    salt := [], encryptedKey := [], mac := [] }

/-- The `AccountInfo` struct of `kp.go` (lines 116-119).  The Go
`map[string]*KeyPairInfo` is modelled as an association list; Go map
iteration order is unspecified, so the list order stands for one arbitrary
iteration order. -/
structure AccountInfo where
  name : String
  keypairs : List (String × KeyPairInfo)
deriving DecidableEq

/-- `AccountInfo.IsEncrypted` (kp.go lines 134-141): true iff some member
key pair reports `IsEncrypted`. -/
def AccountInfo.isEncrypted (a : AccountInfo) : Bool :=
  a.keypairs.any fun x => x.2.isEncrypted

/-- The member loop of `AccountInfo.Encrypt` (kp.go lines 161-166): encrypt
each member in iteration order, aborting on the first member error and
leaving the remaining members untouched.  `rand` supplies the 32 random salt
bytes of the i-th `Encrypt` call. -/
def encryptList (P : CryptoPrims) (rand : Nat → List Nat) (password : List Nat) :
    Nat → List (String × KeyPairInfo) → List (String × KeyPairInfo) × Option KPError
  | _, [] => ([], none)
  | i, (s, k) :: rest =>
    match k.encrypt P (rand i) password with
    | (k1, none) =>
      let r := encryptList P rand password (i + 1) rest
      ((s, k1) :: r.1, r.2)
    | (k1, some e) => ((s, k1) :: rest, some e)

/-- `AccountInfo.Encrypt` (kp.go lines 157-168): if any member is already
encrypted the whole call fails with `"account already encrypted"` before the
loop runs, leaving every member unchanged; otherwise each member is encrypted
in iteration order with fail-fast error propagation. -/
def AccountInfo.encrypt (P : CryptoPrims) (rand : Nat → List Nat)
    (a : AccountInfo) (password : List Nat) : AccountInfo × Option KPError :=
  if a.isEncrypted then (a, some .accountAlreadyEncrypted)
  else
    let r := encryptList P rand password 0 a.keypairs
    ({ a with keypairs := r.1 }, r.2)

/-- The blob store underlying `FileAccountStore`: a key-value map from file
path to blob content, as the spec directs for the storage layer. -/
def Store : Type := String → Option (List Nat)

/-- Point update of a blob store: `Store.set s k v` maps `k` to `v` and every
other key as before (writing `some b` models a file write, `none` models the
removal half of a rename). -/
def Store.set (s : Store) (k : String) (v : Option (List Nat)) : Store :=
  fun q => if q = k then v else s q

/-- Failure outcomes of `FileAccountStore.SaveAccount`. -/
inductive StoreErr where
  | mkdirFailed
  | renameFailed
  | writeFailed
deriving DecidableEq

/-- `FileAccountStore.SaveAccount` (kp.go lines 210-233) over the blob-store
abstraction.  `blob` is the serialized account (`json.MarshalIndent` cannot
fail on this data).  The booleans are the success/failure oracle of the four
filesystem calls in source order: `MkdirAll dir`, `MkdirAll backupDir`,
`Rename`, `WriteFile`; each failing call returns its error immediately, as in
the source.  A rename moves the old blob: the backup key receives the old
content and the original key is cleared before the new write. -/
def saveAccount (store : Store) (dir name ts : String) (blob : List Nat)
    (mkdirOk mkdirBackupOk renameOk writeOk : Bool) : Store × Option StoreErr :=
  if !mkdirOk then (store, some .mkdirFailed)
  else
    let fileName := dir ++ "/" ++ name ++ ".json"
    match store fileName with
    | some old =>
      if !mkdirBackupOk then (store, some .mkdirFailed)
      else
        let backupFileName := dir ++ "/backup/" ++ name ++ "." ++ ts ++ ".json"
        if !renameOk then (store, some .renameFailed)
        else
          let store1 := (store.set backupFileName (some old)).set fileName none
          if writeOk then (store1.set fileName (some blob), none)
          else (store1, some .writeFailed)
    | none =>
      if writeOk then (store.set fileName (some blob), none)
      else (store, some .writeFailed)

/-- A concrete already-encrypted record (as produced by loading a persisted
account): ciphertext, salt and mac present, raw key absent.  Its mac is the
one `idPrims` computes over its ciphertext, so `decrypt` succeeds. -/
def kEnc : KeyPairInfo :=
  { id := "id1", rawKey := [], keyType := "ed25519", pubKey := [3],
    salt := List.replicate 48 0, encryptedKey := [5],
    mac := List.replicate 16 0 ++ [5] }

/-- A concrete encrypted record whose stored mac does not match the mac that
`decrypt` recomputes under `idPrims` (a wrong-password / corrupted record). -/
def kBadMac : KeyPairInfo :=
  { id := "id2", rawKey := [], keyType := "ed25519", pubKey := [4],
    salt := List.replicate 48 0, encryptedKey := [5], mac := [] }

/-- A concrete encrypted record whose stored salt decodes to fewer than
48 bytes. -/
def kShortSalt : KeyPairInfo :=
  { id := "id3", rawKey := [], keyType := "ed25519", pubKey := [6],
    salt := [1, 2], encryptedKey := [5], mac := [7] }

/-- A concrete mixed account: one member already encrypted, one still
plaintext. -/
def aMix : AccountInfo :=
  { name := "acct", keypairs := [("owner", kEnc), ("active", k0)] }

/-- A concrete blob store holding one account blob. -/
def store0 : Store :=
  fun q => if q = "d/a.json" then some [1] else none

/-- Key records reachable through the public operations alone: created by
`NewKeyPairInfo` and evolved by `encrypt` and `decrypt` (with arbitrary
passwords and salt randomness).  Records loaded from a persisted account are
not of this shape — they enter with `encryptedKey` already populated. -/
inductive Reachable (P : CryptoPrims) : KeyPairInfo → Prop where
  | created (raw : List Nat) (t i : String) (pub : List Nat) (k : KeyPairInfo) :
      NewKeyPairInfo raw t i pub = some k → Reachable P k
  | encStep (k : KeyPairInfo) (r pw : List Nat) :
      Reachable P k → Reachable P ((k.encrypt P r pw).1)
  | decStep (k : KeyPairInfo) (pw : List Nat) :
      Reachable P k → Reachable P ((k.decrypt P pw).1)

/-- `encrypt` never writes the `encryptedKey` field (this is the central slip
in the source: the ciphertext `outText` is computed and then dropped). -/
theorem encrypt_encryptedKey (P : CryptoPrims) (r : List Nat) (k : KeyPairInfo)
    (pw : List Nat) : ((k.encrypt P r pw).1).encryptedKey = k.encryptedKey := by
  unfold KeyPairInfo.encrypt
  split <;> rfl

/-- `decrypt` never writes the `encryptedKey` field. -/
theorem decrypt_encryptedKey (P : CryptoPrims) (k : KeyPairInfo)
    (pw : List Nat) : ((k.decrypt P pw).1).encryptedKey = k.encryptedKey := by
  unfold KeyPairInfo.decrypt
  split
  · rfl
  · split
    · rfl
    · dsimp only
      split <;> rfl

/-- Every record reachable through the public operations has an empty
`encryptedKey`: creation starts it empty and neither operation assigns it. -/
theorem reachable_encryptedKey_nil (P : CryptoPrims) (k : KeyPairInfo)
    (h : Reachable P k) : k.encryptedKey = [] := by
  induction h with
  | created raw t i pub k hk =>
    unfold NewKeyPairInfo at hk
    split at hk
    · exact absurd hk (by simp)
    · cases hk
      rfl
  | encStep k r pw _ ih => rw [encrypt_encryptedKey]; exact ih
  | decStep k pw _ ih => rw [decrypt_encryptedKey]; exact ih

/-- C1.  The round trip fails on the code: `Encrypt` never stores the
ciphertext in `encryptedKey`, so the subsequent `Decrypt` with the same
password recomputes the mac over an empty ciphertext, detects a mismatch with
the stored mac, returns `wrongPassword`, and the raw key stays lost
(`rawKey` remains empty instead of decoding back to the original bytes). -/
theorem c1_roundtrip_fails_wrongPassword :
    ((k0.encrypt idPrims r0 [9]).1.decrypt idPrims [9]).2
        = some KPError.wrongPassword ∧
    ((k0.encrypt idPrims r0 [9]).1.decrypt idPrims [9]).1.rawKey = [] := by
  decide

/-- C2.  After a successful `Encrypt` of a plaintext record, salt and mac are
stored and `rawKey` is cleared, but `encryptedKey` is still empty: the
computed ciphertext is never assigned to the record, contradicting the
postcondition that all three encrypted fields are non-empty afterwards. -/
theorem c2_encrypt_drops_ciphertext :
    (k0.encrypt idPrims r0 [9]).2 = none ∧
    (k0.encrypt idPrims r0 [9]).1.rawKey = [] ∧
    (k0.encrypt idPrims r0 [9]).1.salt ≠ [] ∧
    (k0.encrypt idPrims r0 [9]).1.mac ≠ [] ∧
    (k0.encrypt idPrims r0 [9]).1.encryptedKey = [] := by
  decide

/-- C3 counterexample.  A record loaded with a non-empty `encryptedKey` whose
mac matches: `decrypt` succeeds, writes the plaintext into `rawKey` and
leaves the encrypted fields in place, so afterwards `rawKey` and
`encryptedKey` are simultaneously non-empty — the exactly-one-state invariant
fails for records reached through `Decrypt` of a loaded record. -/
theorem c3_loaded_decrypt_violates_invariant :
    (kEnc.decrypt idPrims [3]).2 = none ∧
    (kEnc.decrypt idPrims [3]).1.rawKey ≠ [] ∧
    (kEnc.decrypt idPrims [3]).1.encryptedKey ≠ [] := by
  decide

/-- C3 amended.  Restricted to records reachable through creation, `Encrypt`
and `Decrypt` alone (no externally loaded records), a record never
simultaneously holds a non-empty `rawKey` and a non-empty `encryptedKey`;
indeed `encryptedKey` stays empty throughout. -/
theorem c3_exclusive_state_reachable (P : CryptoPrims) (k : KeyPairInfo)
    (h : Reachable P k) : ¬ (k.rawKey ≠ [] ∧ k.encryptedKey ≠ []) :=
  fun hc => hc.2 (reachable_encryptedKey_nil P k h)

/-- C3 amended, witness: the invariant holds at the concrete freshly created
record `k0`. -/
theorem c3_exclusive_state_reachable_witness :
    ¬ (k0.rawKey ≠ [] ∧ k0.encryptedKey ≠ []) :=
  c3_exclusive_state_reachable idPrims k0
    (Reachable.created [1] "ed25519" "id0" [2] k0 (by decide))

/-- C4.  For every encrypted record whose stored salt decodes to at least
48 bytes (so the Go slice expressions do not panic) and every password for
which the recomputed mac differs from the stored mac, `Decrypt` returns
`wrongPassword` and the record is completely unchanged. -/
theorem c4_wrong_password_leaves_record_unchanged (P : CryptoPrims)
    (pw : List Nat) (k : KeyPairInfo) (h1 : k.isEncrypted = true)
    (h2 : 48 ≤ k.salt.length)
    (h3 : P.sha3 (((P.scryptKey pw (k.salt.take 32)).drop 16).take 16
        ++ k.encryptedKey) ≠ k.mac) :
    k.decrypt P pw = (k, some KPError.wrongPassword) := by
  unfold KeyPairInfo.decrypt
  rw [h1]
  simp only [Bool.not_true, Bool.false_eq_true, if_false, Nat.not_lt.mpr h2,
    if_neg (by omega : ¬ k.salt.length < 48)]
  simp only [ne_eq, h3, not_false_eq_true, if_pos]

/-- C4 witness: at the concrete record `kBadMac` and password `[2]`,
`Decrypt` returns `wrongPassword` and the record is unchanged. -/
theorem c4_wrong_password_witness :
    kBadMac.decrypt idPrims [2] = (kBadMac, some KPError.wrongPassword) :=
  c4_wrong_password_leaves_record_unchanged idPrims [2] kBadMac
    (by decide) (by decide) (by decide)

/-- C5.  An encrypted record whose stored salt decodes to fewer than
48 bytes: the source panics at the slice expressions `salt[0:32]` /
`salt[32:48]` (a runtime crash), instead of returning the `MalformedRecord`
error the claim requires.  The embedding maps that crash to the explicit
`sliceOutOfRange` outcome. -/
theorem c5_short_salt_crashes :
    kShortSalt.decrypt idPrims [1] = (kShortSalt, some KPError.sliceOutOfRange) := by
  decide

/-- C6.  For a plaintext record (non-empty `rawKey`, empty `encryptedKey`):
the first `Encrypt` succeeds and clears `rawKey`, so a second `Encrypt`
without an intervening `Decrypt` fails with `alreadyEncrypted`; and `Decrypt`
on the never-encrypted record fails with `notEncrypted`. -/
theorem c6_state_guards (P : CryptoPrims) (r1 r2 pw : List Nat)
    (k : KeyPairInfo) (hraw : k.rawKey ≠ []) (henc : k.encryptedKey = []) :
    (k.encrypt P r1 pw).2 = none ∧
    ((k.encrypt P r1 pw).1.encrypt P r2 pw).2 = some KPError.alreadyEncrypted ∧
    (k.decrypt P pw).2 = some KPError.notEncrypted := by
  have hk : k.isEncrypted = false := by
    simp [KeyPairInfo.isEncrypted, henc, hraw]
  refine ⟨?_, ?_, ?_⟩
  · unfold KeyPairInfo.encrypt
    rw [hk]
    rfl
  · unfold KeyPairInfo.encrypt
    rw [hk]
    dsimp only
    rw [if_pos (by simp [KeyPairInfo.isEncrypted])]
  · unfold KeyPairInfo.decrypt
    rw [hk]
    rfl

/-- C6 witness: at the concrete plaintext record `k0`. -/
theorem c6_state_guards_witness :
    (k0.encrypt idPrims r0 [9]).2 = none ∧
    ((k0.encrypt idPrims r0 [9]).1.encrypt idPrims r0 [9]).2
        = some KPError.alreadyEncrypted ∧
    (k0.decrypt idPrims [9]).2 = some KPError.notEncrypted :=
  c6_state_guards idPrims r0 r0 [9] k0 (by decide) (by decide)

/-- C7 counterexample.  `Encrypt` with an empty password on the concrete
plaintext record `k0` succeeds (`none`), it does not fail with `EmptyInput`:
the source has no empty-password check (`scrypt` accepts an empty
password). -/
theorem c7_empty_password_accepted :
    (k0.encrypt idPrims r0 []).2 = none ∧
    (k0.encrypt idPrims r0 []).2 ≠ some KPError.emptyKey := by
  decide

/-- C7 amended.  Creating a record from an empty raw key fails with the
empty-input error and no record is created; but `Encrypt` with an empty
password on a plaintext record succeeds — the code performs no password
check. -/
theorem c7_empty_key_rejected_empty_password_accepted (t i : String)
    (pub : List Nat) (P : CryptoPrims) (r : List Nat) (k : KeyPairInfo)
    (hraw : k.rawKey ≠ []) (henc : k.encryptedKey = []) :
    NewKeyPairInfo [] t i pub = none ∧ (k.encrypt P r []).2 = none := by
  constructor
  · rfl
  · unfold KeyPairInfo.encrypt
    rw [if_neg (by simp [KeyPairInfo.isEncrypted, henc, hraw])]

/-- C7 amended, witness: at the concrete plaintext record `k0`. -/
theorem c7_empty_key_rejected_witness :
    NewKeyPairInfo [] "ed25519" "id0" [2] = none ∧
    (k0.encrypt idPrims r0 []).2 = none :=
  c7_empty_key_rejected_empty_password_accepted "ed25519" "id0" [2] idPrims r0
    k0 (by decide) (by decide)

/-- C8.  An account with at least one already-encrypted member and at least
one plaintext member: `AccountInfo.Encrypt` hits its `IsEncrypted` guard
before the member loop runs, so it returns the account-already-encrypted
error with the whole account — every plaintext member included — completely
unchanged. -/
theorem c8_mixed_account_encrypt_guard (P : CryptoPrims)
    (rand : Nat → List Nat) (a : AccountInfo) (pw : List Nat)
    (h1 : ∃ x ∈ a.keypairs, x.2.isEncrypted = true)
    (_h2 : ∃ x ∈ a.keypairs, x.2.isEncrypted = false) :
    a.encrypt P rand pw = (a, some KPError.accountAlreadyEncrypted) := by
  have ha : a.isEncrypted = true := by
    rcases h1 with ⟨x, hx, hxe⟩
    exact List.any_eq_true.mpr ⟨x, hx, hxe⟩
  unfold AccountInfo.encrypt
  rw [ha]
  rfl

/-- C8 witness: at the concrete mixed account `aMix` (one encrypted member,
one plaintext member). -/
theorem c8_mixed_account_encrypt_guard_witness :
    aMix.encrypt idPrims (fun _ => r0) [9]
        = (aMix, some KPError.accountAlreadyEncrypted) :=
  c8_mixed_account_encrypt_guard idPrims (fun _ => r0) aMix [9]
    (by decide) (by decide)

/-- The backup path written by `SaveAccount` is always a different key from
the live account path (it is strictly longer). -/
theorem backup_key_ne_file_key (dir name ts : String) :
    dir ++ "/backup/" ++ name ++ "." ++ ts ++ ".json"
      ≠ dir ++ "/" ++ name ++ ".json" := by
  intro hEq
  have hl := congrArg String.length hEq
  have e1 : "/backup/".length = 8 := rfl
  have e2 : "/".length = 1 := rfl
  have e3 : ".".length = 1 := rfl
  simp only [String.length_append, e1, e2, e3] at hl
  omega

/-- C9.  Backup-on-overwrite: when a blob already exists under the account's
live path, then after `SaveAccount` — whatever the success/failure outcome of
each of its four filesystem calls — the prior blob's content is still present
in the store, either untouched at the live path (when the save aborted before
or at the rename) or moved to the timestamped backup path (once the rename
happened), so no successful or failed save destroys it. -/
theorem c9_backup_on_overwrite (store : Store) (dir name ts : String)
    (blob old : List Nat) (m1 m2 r w : Bool)
    (h : store (dir ++ "/" ++ name ++ ".json") = some old) :
    (saveAccount store dir name ts blob m1 m2 r w).1
        (dir ++ "/backup/" ++ name ++ "." ++ ts ++ ".json") = some old ∨
    (saveAccount store dir name ts blob m1 m2 r w).1
        (dir ++ "/" ++ name ++ ".json") = some old := by
  have hne := backup_key_ne_file_key dir name ts
  unfold saveAccount
  cases m1 with
  | false => exact Or.inr h
  | true =>
    simp only [Bool.not_true, Bool.false_eq_true, if_false, h]
    cases m2 with
    | false => exact Or.inr h
    | true =>
      simp only [Bool.not_true, Bool.false_eq_true, if_false]
      cases r with
      | false => exact Or.inr h
      | true =>
        simp only [Bool.not_true, Bool.false_eq_true, if_false]
        cases w with
        | false =>
          left
          simp [Store.set, hne]
        | true =>
          left
          simp [Store.set, hne]

/-- C9 witness: at the concrete one-blob store `store0` with every
filesystem call succeeding. -/
theorem c9_backup_on_overwrite_witness :
    (saveAccount store0 "d" "a" "T" [2] true true true true).1
        ("d" ++ "/backup/" ++ "a" ++ "." ++ "T" ++ ".json") = some [1] ∨
    (saveAccount store0 "d" "a" "T" [2] true true true true).1
        ("d" ++ "/" ++ "a" ++ ".json") = some [1] :=
  c9_backup_on_overwrite store0 "d" "a" "T" [2] [1] true true true true
    (by decide)

/-- C10.  Frame property: `Encrypt` and `Decrypt` never modify the record's
`id`, `keyType` or `pubKey` fields, whether they succeed or return an
error. -/
theorem c10_frame_id_keyType_pubKey (P : CryptoPrims) (r pw : List Nat)
    (k : KeyPairInfo) :
    ((k.encrypt P r pw).1.id = k.id ∧
      (k.encrypt P r pw).1.keyType = k.keyType ∧
      (k.encrypt P r pw).1.pubKey = k.pubKey) ∧
    ((k.decrypt P pw).1.id = k.id ∧
      (k.decrypt P pw).1.keyType = k.keyType ∧
      (k.decrypt P pw).1.pubKey = k.pubKey) := by
  constructor
  · unfold KeyPairInfo.encrypt
    split <;> exact ⟨rfl, rfl, rfl⟩
  · unfold KeyPairInfo.decrypt
    split
    · exact ⟨rfl, rfl, rfl⟩
    · split
      · exact ⟨rfl, rfl, rfl⟩
      · dsimp only
        split <;> exact ⟨rfl, rfl, rfl⟩

end QuantosKP
